import Mathlib

/-!
Shallow embedding of the two core scripts of the autonomous-review-loop
repository:

* `scripts/python/review_wait.py` — the CI wait poller, modelled as a pure
  function over a stream of fetched check lists; wall-clock time advances
  only at the explicit `time.sleep` calls, recorded in an event trace.
* `scripts/python/review_comments.py` — the review aggregator, modelled as
  pure filtering and rendering over the decoded GraphQL data, with the
  external lookups given as an environment of `Except`-valued results.
-/

/-! ### CI wait poller (`scripts/python/review_wait.py`) -/

def INITIAL_DELAY : Nat := 10

def POLL_INTERVAL : Nat := 15

def DEFAULT_TIMEOUT : Nat := 600

def RUNNING_STATES : List String :=
  ["pending", "in_progress", "queued", "waiting", "requested"]

/-- Python `str.lower()` restricted to ASCII letters (all names and states
involved are ASCII). -/
def pyLower (s : String) : String := String.mk (s.toList.map Char.toLower)

/-- Python substring containment `needle in hay` on character lists. -/
def containsSub (needle : List Char) : List Char → Bool
  | [] => needle.isEmpty
  | c :: t => needle.isPrefixOf (c :: t) || containsSub needle t

structure Check where
  name : String
  state : String
deriving DecidableEq

/-- The matcher from `get_coderabbit_check`:
`"coderabbit" in check.get("name", "").lower()`. -/
def nameMatches (c : Check) : Bool :=
  containsSub "coderabbit".toList (pyLower c.name).toList

/-- `get_coderabbit_check`: first check in the fetched list whose name
contains `"coderabbit"` case-insensitively, if any. -/
def get_coderabbit_check (checks : List Check) : Option Check :=
  checks.find? nameMatches

/-- The membership test from `main`: the state string is lowercased and
looked up in `RUNNING_STATES`. -/
def isRunningState (s : String) : Bool :=
  RUNNING_STATES.contains (pyLower s)

inductive PollResult where
  | nothingToWait
  | completed (terminalState : Option String)
  | timedOut
deriving DecidableEq

/-- Observable events of a poller run: `time.sleep` calls and fetches of the
check list (`fetchEv i` is the `i`-th call of `get_coderabbit_check`). -/
inductive Ev where
  | sleepEv (secs : Nat)
  | fetchEv (idx : Nat)
deriving DecidableEq

/-- Process exit code: `sys.exit(0)` on no-op and completion, `sys.exit(1)`
on timeout. -/
def pollerExitCode : PollResult → Nat
  | .timedOut => 1
  | _ => 0

/-- Whether the `j`-th fetch of the check list finds a matching check in a
running state. -/
def runningAt (fetches : Nat → List Check) (j : Nat) : Bool :=
  match get_coderabbit_check (fetches j) with
  | some c => isRunningState c.state
  | none => false

/-- The `while time.time() - start_time < timeout` loop of `main`.  At the
condition check of iteration `k` the elapsed time is
`INITIAL_DELAY + POLL_INTERVAL * k` (the initial sleep plus the `k` poll
sleeps performed so far); iteration `k` re-fetches the check list (fetch
index `k + 1`), exits with "completed" if no matching check is found or its
state is not running, and otherwise sleeps `POLL_INTERVAL` and continues. -/
def pollLoop (fetches : Nat → List Check) (timeout k : Nat) :
    PollResult × List Ev :=
  if _h : INITIAL_DELAY + POLL_INTERVAL * k < timeout then
    match get_coderabbit_check (fetches (k + 1)) with
    | none => (.completed none, [.fetchEv (k + 1)])
    | some c =>
      if isRunningState c.state then
        let rest := pollLoop fetches timeout (k + 1)
        (rest.1, .fetchEv (k + 1) :: .sleepEv POLL_INTERVAL :: rest.2)
      else (.completed (some c.state), [.fetchEv (k + 1)])
  else (.timedOut, [])
termination_by timeout - (INITIAL_DELAY + POLL_INTERVAL * k)
decreasing_by simp only [INITIAL_DELAY, POLL_INTERVAL] at *; omega

/-- `main` of `review_wait.py` after argument parsing: sleep
`INITIAL_DELAY`, fetch once, return "nothing to wait for" unless a matching
check is found in a running state, otherwise enter the poll loop. -/
def mainPoller (fetches : Nat → List Check) (timeout : Nat) :
    PollResult × List Ev :=
  let pre : List Ev := [.sleepEv INITIAL_DELAY, .fetchEv 0]
  match get_coderabbit_check (fetches 0) with
  | none => (.nothingToWait, pre)
  | some c =>
    if isRunningState c.state then
      let rest := pollLoop fetches timeout 0
      (rest.1, pre ++ rest.2)
    else (.nothingToWait, pre)

/-! #### Argument parsing (`parse_args`) -/

/-- Python whitespace stripped by `str.strip()` / ignored by `int(str)`
(ASCII part). -/
def isPySpace (c : Char) : Bool :=
  c = ' ' || c = '\t' || c = '\n' || c = '\r' || c = '\x0b' || c = '\x0c'

/-- Python `str.strip()` on a character list. -/
def pyStripList (cs : List Char) : List Char :=
  ((cs.dropWhile isPySpace).reverse.dropWhile isPySpace).reverse

def digitsToNat (ds : List Char) : Nat :=
  ds.foldl (fun n c => 10 * n + (c.toNat - '0'.toNat)) 0

/-- Python `int(str)` for ASCII decimal integers: surrounding whitespace is
ignored, an optional single sign is allowed, and the rest must be a
non-empty digit string; anything else raises `ValueError` (here: `none`).
(Underscore digit separators are not modelled.) -/
def pyInt? (s : String) : Option Int :=
  match pyStripList s.toList with
  | [] => none
  | '-' :: ds =>
    if ds ≠ [] ∧ ds.all Char.isDigit then some (-(digitsToNat ds : Int))
    else none
  | '+' :: ds =>
    if ds ≠ [] ∧ ds.all Char.isDigit then some (digitsToNat ds : Int)
    else none
  | ds =>
    if ds.all Char.isDigit then some (digitsToNat ds : Int) else none

/-- Python `str.split("=")`, as (first segment, remaining segments). -/
def splitEqAux : List Char → List Char × List (List Char)
  | [] => ([], [])
  | c :: rest =>
    let r := splitEqAux rest
    if c = '=' then ([], r.1 :: r.2) else (c :: r.1, r.2)

/-- Python `str.split("=")`. -/
def splitEq (cs : List Char) : List (List Char) :=
  (splitEqAux cs).1 :: (splitEqAux cs).2

/-- One step of the `for arg in sys.argv[1:]` loop of `parse_args`, acting
on the accumulator (current timeout, number of warnings printed so far). -/
def timeoutStep (acc : Nat × Nat) (arg : String) : Nat × Nat :=
  if "--timeout=".toList.isPrefixOf arg.toList then
    match pyInt? (String.mk ((splitEq arg.toList).getD 1 [])) with
    | some n => if 0 < n then (n.toNat, acc.2) else (acc.1, acc.2 + 1)
    | none => (acc.1, acc.2 + 1)
  else acc

/-- `parse_args`: returns the timeout and the count of
"Invalid timeout value, using default" warnings printed to stderr. -/
def parse_args (argv : List String) : Nat × Nat :=
  argv.foldl timeoutStep (DEFAULT_TIMEOUT, 0)

/-! ### Review aggregator (`scripts/python/review_comments.py`) -/

/-- One node of `reactions.nodes` in the GraphQL response; `none` models a
missing/null field. -/
structure Reaction where
  user : Option String
  content : Option String
deriving DecidableEq

/-- One node of `reviews.nodes`; `author` is the author login. -/
structure Review where
  id : String
  author : Option String
  body : Option String
  reactions : List Reaction
deriving DecidableEq

/-- One node of `comments.nodes` of a review thread; `line = none` models an
absent line. -/
structure Comment where
  author : Option String
  path : String
  line : Option Int
  body : String
deriving DecidableEq

/-- One node of `reviewThreads.nodes`. -/
structure Thread where
  id : String
  isResolved : Bool
  comments : List Comment
deriving DecidableEq

/-- An entry of the `review_bodies` list built in `main`. -/
structure RB where
  id : String
  body : String
deriving DecidableEq

/-- The `pullRequest` object of the GraphQL response. -/
structure PrData where
  reviews : List Review
  reviewThreads : List Thread
deriving DecidableEq

/-! #### HTML-comment stripping -/

/-- Scan for the first occurrence of the closing delimiter `-->` and return
the characters after it (the non-greedy end of a `<!-- ... -->` match). -/
def findCommentClose : List Char → Option (List Char)
  | [] => none
  | c :: rest =>
    if ['-', '-', '>'].isPrefixOf (c :: rest) then some (rest.drop 2)
    else findCommentClose rest

/-- Fuel-indexed scanner for `re.sub(r"<!--[\s\S]*?-->", "", body)`: at each
position, if `<!--` starts here and a `-->` occurs later, delete through the
first such `-->` and continue after it; otherwise keep the character.  The
fuel only bounds the recursion; `removeComments` supplies enough of it. -/
def removeCommentsF : Nat → List Char → List Char
  | 0, cs => cs
  | _ + 1, [] => []
  | fuel + 1, c :: rest =>
    if ['<', '!', '-', '-'].isPrefixOf (c :: rest) then
      match findCommentClose (rest.drop 3) with
      | some rem => removeCommentsF fuel rem
      | none => c :: removeCommentsF fuel rest
    else c :: removeCommentsF fuel rest

def removeComments (cs : List Char) : List Char :=
  removeCommentsF cs.length cs

/-- `strip_html_comments`: delete every `<!-- ... -->` span (non-greedy,
spanning newlines) and strip surrounding whitespace. -/
def strip_html_comments (body : String) : String :=
  String.mk (pyStripList (removeComments body.toList))

/-! #### Filtering pipeline of `main` -/

/-- Python truthiness of an optional string: `None` and `""` are falsy. -/
def pyTruthyOpt : Option String → Bool
  | none => false
  | some s => !s.isEmpty

/-- `has_user_reacted`: some reaction node has `user.login == username` and
`content == "THUMBS_UP"`. -/
def has_user_reacted (review : Review) (username : String) : Bool :=
  review.reactions.any fun r =>
    r.user == some username && r.content == some "THUMBS_UP"

/-- The `coderabbit_reviews` list comprehension: author login is
`"coderabbitai"` and the body is truthy. -/
def coderabbit_reviews (rs : List Review) : List Review :=
  rs.filter fun r => r.author == some "coderabbitai" && pyTruthyOpt r.body

/-- The `unreacted_reviews` list comprehension. -/
def unreacted_reviews (rs : List Review) (user : String) : List Review :=
  (coderabbit_reviews rs).filter fun r => !has_user_reacted r user

/-- The `review_bodies` list comprehension: strip HTML comments from each
remaining body and keep only those whose stripped body is truthy. -/
def review_bodies (rs : List Review) (user : String) : List RB :=
  (unreacted_reviews rs user).filterMap fun r =>
    if (strip_html_comments (r.body.getD "")).isEmpty then none
    else some ⟨r.id, strip_html_comments (r.body.getD "")⟩

/-- The `unresolved_threads` list comprehension: not resolved and at least
one comment. -/
def unresolved_threads (ts : List Thread) : List Thread :=
  ts.filter fun t => !t.isResolved && !t.comments.isEmpty

/-! #### Rendering -/

/-- Python `"\n\n---\n\n".join`-style joining. -/
def joinSep (sep : String) : List String → String
  | [] => ""
  | [x] => x
  | x :: y :: xs => x ++ sep ++ joinSep sep (y :: xs)

def resolve_cmd : String :=
  "gh api graphql -f query=\x27mutation \x7b resolveReviewThread(input: \x7bthreadId: \"THREAD_ID\"\x7d) \x7b thread \x7b isResolved \x7d \x7d \x7d\x27"

def react_cmd : String :=
  "gh api graphql -f query=\x27mutation \x7b addReaction(input: \x7bsubjectId: \"REVIEW_ID\", content: THUMBS_UP\x7d) \x7b reaction \x7b content \x7d \x7d \x7d\x27"

/-- The location rendered for a thread's first comment:
`f"{comment[\x27path\x27]}:{comment.get(\x27line\x27, \x27?\x27)}"`. -/
def location (c : Comment) : String :=
  c.path ++ ":" ++ (match c.line with | some n => toString n | none => "?")

def defaultComment : Comment := ⟨none, "", none, ""⟩

/-- The block rendered for one unresolved thread (its first comment). -/
def threadPart (t : Thread) : String :=
  let comment := t.comments.headD defaultComment
  "## " ++ location comment ++ "\n\n**Thread ID:** `" ++ t.id ++
    "`\n**Author:** " ++ (comment.author.getD "unknown") ++ "\n\n" ++
    comment.body

/-- The block rendered for one unreacted review. -/
def reviewPart (r : RB) : String :=
  "**Review ID:** `" ++ r.id ++ "`\n\n" ++ r.body

/-- The "no unresolved comments" document. -/
def minimalDoc (pr : Int) : String :=
  "# Review Comments\n\n**PR:** #" ++ toString pr ++
    "\n\nNo unresolved comments.\n"

/-- The full report document built in `main` when there is content. -/
def fullDoc (pr : Int) (unresolved : List Thread) (bodies : List RB) :
    String :=
  let base :=
    "# Review Comments\n\n**PR:** #" ++ toString pr ++
      "\n**Inline threads (unresolved):** " ++ toString unresolved.length ++
      "\n**Review comments (unreacted):** " ++ toString bodies.length ++
      "\n\nTo resolve an inline thread after addressing it:\n```bash\n" ++
      resolve_cmd ++
      "\n```\n\nTo mark a review as addressed (adds reaction):\n```bash\n" ++
      react_cmd ++ "\n```\n\n"
  let withThreads :=
    if unresolved.isEmpty then base
    else base ++ "---\n\n# Inline Comments (Unresolved)\n\n" ++
      joinSep "\n\n---\n\n" (unresolved.map threadPart)
  if bodies.isEmpty then withThreads
  else withThreads ++ "\n\n---\n\n# Review Comments (" ++
    toString bodies.length ++ ")\n\n" ++
    joinSep "\n\n---\n\n" (bodies.map reviewPart)

/-! #### Entry point with the external lookups as an environment -/

structure RepoInfo where
  owner : String
  name : String
deriving DecidableEq

/-- Results of the four external calls made by `main`: `get_repo_info`,
`get_pr_number`, `get_current_user`, and `run_graphql` (the latter as a
function of the owner, repository name and PR number it is invoked with);
`.error` models a raised exception (subprocess failure, malformed JSON,
missing PR, or unexpected response shape). -/
structure AggEnv where
  repoInfo : Except String RepoInfo
  prNumber : Except String Int
  currentUser : Except String String
  graphql : String → String → Int → Except String PrData

/-- Observable outcome of one run of the aggregator script. -/
structure RunOutcome where
  file : Option String
  stdoutLines : List String
  stderrStr : String
  exitCode : Nat
deriving DecidableEq

/-- `main` of `review_comments.py`: perform the lookups and the fetch, run
the filtering pipeline, and produce the written document plus the printed
lines.  Any failed lookup raises (propagates as `.error`). -/
def mainAgg (env : AggEnv) : Except String (String × List String) := do
  let repo ← env.repoInfo
  let pr ← env.prNumber
  let user ← env.currentUser
  let data ← env.graphql repo.owner repo.name pr
  let unresolved := unresolved_threads data.reviewThreads
  let bodies := review_bodies data.reviews user
  if unresolved.isEmpty && bodies.isEmpty then
    pure (minimalDoc pr, ["No unresolved comments found on this PR"])
  else
    pure (fullDoc pr unresolved bodies,
      ["Saved review comments to .reviews/prComments.md:",
       "  - " ++ toString unresolved.length ++ " unresolved inline threads",
       "  - " ++ toString bodies.length ++ " review comments"])

/-- The `if __name__ == "__main__"` guard: a raised exception is printed to
stderr as `Error: <message>` and the process exits 1; otherwise the report
file has been written and the process exits 0. -/
def runAgg (env : AggEnv) : RunOutcome :=
  match mainAgg env with
  | .ok (file, outs) => ⟨some file, outs, "", 0⟩
  | .error e => ⟨none, [], "Error: " ++ e ++ "\n", 1⟩

/-- `strOccurs outer x`: the string `x` occurs verbatim inside `outer`. -/
def strOccurs (outer x : String) : Prop := ∃ a b, outer = a ++ x ++ b

/-- Example fetch stream: the matching check is pending on the initial
fetch and has succeeded by the first in-loop fetch. -/
def exampleFetches : Nat → List Check := fun j =>
  if j = 0 then [⟨"coderabbit-run", "pending"⟩]
  else [⟨"coderabbit-run", "success"⟩]

/-- Example fetch stream: the matching check stays pending forever. -/
def pendingFetches : Nat → List Check := fun _ =>
  [⟨"coderabbit-run", "pending"⟩]

/-! ### Helper lemmas: poller -/

theorem pollLoop_not_lt (fetches : Nat → List Check) (timeout k : Nat)
    (h : ¬ INITIAL_DELAY + POLL_INTERVAL * k < timeout) :
    pollLoop fetches timeout k = (.timedOut, []) := by
  rw [pollLoop]; simp [h]

theorem pollLoop_none (fetches : Nat → List Check) (timeout k : Nat)
    (h : INITIAL_DELAY + POLL_INTERVAL * k < timeout)
    (hget : get_coderabbit_check (fetches (k + 1)) = none) :
    pollLoop fetches timeout k = (.completed none, [.fetchEv (k + 1)]) := by
  rw [pollLoop]; simp [h, hget]

theorem pollLoop_done (fetches : Nat → List Check) (timeout k : Nat)
    (c : Check) (h : INITIAL_DELAY + POLL_INTERVAL * k < timeout)
    (hget : get_coderabbit_check (fetches (k + 1)) = some c)
    (hrun : isRunningState c.state = false) :
    pollLoop fetches timeout k =
      (.completed (some c.state), [.fetchEv (k + 1)]) := by
  rw [pollLoop]; simp [h, hget, hrun]

theorem pollLoop_continue (fetches : Nat → List Check) (timeout k : Nat)
    (c : Check) (h : INITIAL_DELAY + POLL_INTERVAL * k < timeout)
    (hget : get_coderabbit_check (fetches (k + 1)) = some c)
    (hrun : isRunningState c.state = true) :
    pollLoop fetches timeout k =
      ((pollLoop fetches timeout (k + 1)).1,
        .fetchEv (k + 1) :: .sleepEv POLL_INTERVAL ::
          (pollLoop fetches timeout (k + 1)).2) := by
  rw [pollLoop]; simp [h, hget, hrun]

theorem pollLoop_timedOut_iff (fetches : Nat → List Check) (timeout k : Nat) :
    (pollLoop fetches timeout k).1 = .timedOut ↔
      ∀ j, k ≤ j → INITIAL_DELAY + POLL_INTERVAL * j < timeout →
        runningAt fetches (j + 1) = true := by
  by_cases h : INITIAL_DELAY + POLL_INTERVAL * k < timeout
  · cases hget : get_coderabbit_check (fetches (k + 1)) with
    | none =>
      rw [pollLoop_none fetches timeout k h hget]
      constructor
      · intro hcontra; exact absurd hcontra (by simp)
      · intro hall
        have hk := hall k (Nat.le_refl k) h
        simp only [runningAt, hget] at hk
        exact Bool.noConfusion hk
    | some c =>
      by_cases hrun : isRunningState c.state = true
      · rw [pollLoop_continue fetches timeout k c h hget hrun]
        have ih := pollLoop_timedOut_iff fetches timeout (k + 1)
        constructor
        · intro ht j hkj hj
          rcases Nat.eq_or_lt_of_le hkj with rfl | hlt
          · simp only [runningAt, hget]; exact hrun
          · exact (ih.mp ht) j hlt hj
        · intro hall
          exact ih.mpr fun j hj hcond => hall j (Nat.le_of_succ_le hj) hcond
      · rw [pollLoop_done fetches timeout k c h hget
          (by simpa using hrun)]
        constructor
        · intro hcontra; exact absurd hcontra (by simp)
        · intro hall
          have hk := hall k (Nat.le_refl k) h
          simp only [runningAt, hget] at hk
          exact absurd hk hrun
  · rw [pollLoop_not_lt fetches timeout k h]
    constructor
    · intro _ j hkj hj
      exfalso
      simp only [INITIAL_DELAY, POLL_INTERVAL] at h hj
      omega
    · intro _; rfl
termination_by timeout - (INITIAL_DELAY + POLL_INTERVAL * k)
decreasing_by simp only [INITIAL_DELAY, POLL_INTERVAL] at *; omega

theorem pollLoop_fst_ne_nothing (fetches : Nat → List Check)
    (timeout k : Nat) : (pollLoop fetches timeout k).1 ≠ .nothingToWait := by
  by_cases h : INITIAL_DELAY + POLL_INTERVAL * k < timeout
  · cases hget : get_coderabbit_check (fetches (k + 1)) with
    | none => rw [pollLoop_none fetches timeout k h hget]; simp
    | some c =>
      by_cases hrun : isRunningState c.state = true
      · rw [pollLoop_continue fetches timeout k c h hget hrun]
        exact pollLoop_fst_ne_nothing fetches timeout (k + 1)
      · rw [pollLoop_done fetches timeout k c h hget (by simpa using hrun)]
        simp
  · rw [pollLoop_not_lt fetches timeout k h]; simp
termination_by timeout - (INITIAL_DELAY + POLL_INTERVAL * k)
decreasing_by simp only [INITIAL_DELAY, POLL_INTERVAL] at *; omega

theorem mainPoller_timedOut_iff (fetches : Nat → List Check)
    (timeout : Nat) :
    (mainPoller fetches timeout).1 = .timedOut ↔
      (runningAt fetches 0 = true ∧
        ∀ j, INITIAL_DELAY + POLL_INTERVAL * j < timeout →
          runningAt fetches (j + 1) = true) := by
  rw [mainPoller]
  cases hget : get_coderabbit_check (fetches 0) with
  | none => simp [runningAt, hget]
  | some c =>
    by_cases hrun : isRunningState c.state = true
    · simp only [hget, hrun, if_true]
      rw [show ((pollLoop fetches timeout 0).1,
          [Ev.sleepEv INITIAL_DELAY, Ev.fetchEv 0] ++
            (pollLoop fetches timeout 0).2).1 =
          (pollLoop fetches timeout 0).1 from rfl]
      rw [pollLoop_timedOut_iff]
      simp [runningAt, hget, hrun]
    · simp [hget, hrun, runningAt]

/-! ### Helper lemmas: argument parsing -/

theorem foldl_timeoutStep_skip (l : List String) (acc : Nat × Nat)
    (h : ∀ a ∈ l, "--timeout=".toList.isPrefixOf a.toList = false) :
    l.foldl timeoutStep acc = acc := by
  induction l generalizing acc with
  | nil => rfl
  | cons x xs ih =>
    rw [List.foldl_cons]
    have hx := h x (List.mem_cons_self x xs)
    rw [timeoutStep, hx]
    simp only [Bool.false_eq_true, if_false]
    exact ih acc fun a ha => h a (List.mem_cons_of_mem x ha)

theorem timeoutStep_fst_pos (acc : Nat × Nat) (arg : String)
    (h : 0 < acc.1) : 0 < (timeoutStep acc arg).1 := by
  rw [timeoutStep]
  split
  · split
    · next n _ =>
      split
      · next n _ hn =>
        show 0 < n.toNat
        omega
      · simpa using h
    · simpa using h
  · exact h

theorem foldl_timeoutStep_fst_pos (argv : List String) :
    ∀ acc : Nat × Nat, 0 < acc.1 → 0 < (argv.foldl timeoutStep acc).1 := by
  induction argv with
  | nil => intro acc h; exact h
  | cons x xs ih =>
    intro acc h
    rw [List.foldl_cons]
    exact ih _ (timeoutStep_fst_pos acc x h)

/-! ### Helper lemmas: aggregator -/

theorem strip_empty : strip_html_comments "" = "" := rfl

theorem strip_nonempty_truthy (b : Option String)
    (h : strip_html_comments (b.getD "") ≠ "") : pyTruthyOpt b = true := by
  cases b with
  | none => exact absurd rfl h
  | some s =>
    cases hs : s.isEmpty
    · simp [pyTruthyOpt, hs]
    · exfalso
      apply h
      rw [Option.getD, (String.isEmpty_iff s).mp hs]
      rfl

/-- The composed filtering pipeline: an entry is in `review_bodies` exactly
when it comes from a review authored by the bot, with a non-empty stripped
body, on which the current user has not reacted with a thumbs up. -/
theorem mem_review_bodies_iff (rs : List Review) (user : String) (rb : RB) :
    rb ∈ review_bodies rs user ↔
      ∃ r ∈ rs, r.author = some "coderabbitai" ∧
        strip_html_comments (r.body.getD "") ≠ "" ∧
        has_user_reacted r user = false ∧
        rb = ⟨r.id, strip_html_comments (r.body.getD "")⟩ := by
  simp only [review_bodies, unreacted_reviews, coderabbit_reviews,
    List.mem_filterMap, List.mem_filter]
  constructor
  · rintro ⟨r, ⟨⟨hmem, hp⟩, hq⟩, hf⟩
    rw [Bool.and_eq_true, beq_iff_eq] at hp
    split at hf
    · exact absurd hf (by simp)
    · next hne =>
      refine ⟨r, hmem, hp.1, ?_, ?_, ?_⟩
      · intro hc
        rw [hc] at hne
        simp [String.isEmpty_iff] at hne
      · simpa using hq
      · simpa using hf.symm
  · rintro ⟨r, hmem, hauth, hne, hreact, hrb⟩
    refine ⟨r, ⟨⟨hmem, ?_⟩, by simp [hreact]⟩, ?_⟩
    · rw [Bool.and_eq_true, beq_iff_eq]
      exact ⟨hauth, strip_nonempty_truthy r.body hne⟩
    · split
      · next hemp => exact absurd ((String.isEmpty_iff _).mp hemp) hne
      · rw [hrb]

theorem strOccurs_append_left (l outer x : String) (h : strOccurs outer x) :
    strOccurs (l ++ outer) x := by
  obtain ⟨a, b, hab⟩ := h
  exact ⟨l ++ a, b, by simp [hab, String.append_assoc]⟩

theorem strOccurs_append_right (outer r x : String) (h : strOccurs outer x) :
    strOccurs (outer ++ r) x := by
  obtain ⟨a, b, hab⟩ := h
  exact ⟨a, b ++ r, by simp [hab, String.append_assoc]⟩

theorem mem_joinSep_occurs (sep x : String) :
    ∀ l : List String, x ∈ l → strOccurs (joinSep sep l) x
  | [], h => absurd h (List.not_mem_nil x)
  | [y], h => by
    rw [List.mem_singleton] at h
    subst h
    refine ⟨"", "", ?_⟩
    rw [String.empty_append, String.append_empty, joinSep]
  | y :: z :: xs, h => by
    rw [joinSep]
    rcases List.mem_cons.mp h with rfl | h2
    · exact ⟨"", sep ++ joinSep sep (z :: xs), by
        rw [String.empty_append, String.append_assoc]⟩
    · exact strOccurs_append_left _ _ _
        (mem_joinSep_occurs sep x (z :: xs) h2)

/-- Every unresolved thread's rendered block occurs verbatim in the full
report document. -/
theorem threadPart_occurs_fullDoc (pr : Int) (unresolved : List Thread)
    (bodies : List RB) (t : Thread) (h : t ∈ unresolved) :
    strOccurs (fullDoc pr unresolved bodies) (threadPart t) := by
  have hne : unresolved.isEmpty = false := by
    cases unresolved with
    | nil => exact absurd h (List.not_mem_nil t)
    | cons a l => rfl
  have hj : strOccurs (joinSep "\n\n---\n\n" (unresolved.map threadPart))
      (threadPart t) :=
    mem_joinSep_occurs _ _ _ (List.mem_map_of_mem threadPart h)
  rw [fullDoc]
  simp only [hne, Bool.false_eq_true, if_false]
  split
  · exact strOccurs_append_left _ _ _ hj
  · exact strOccurs_append_right _ _ _ (strOccurs_append_right _ _ _
      (strOccurs_append_right _ _ _ (strOccurs_append_right _ _ _
        (strOccurs_append_left _ _ _ hj))))

/-! ## Claims -/

/-- C2: for every poll iteration after the poller has entered its poll
loop, if the re-fetched check list contains a matching check whose state is
in the running-state set the poller continues polling; if no matching check
is found, or the matched check's state is any other state, the poller
returns "completed" with exit code 0.  Matching is re-done from scratch on
every poll (each iteration inspects only its own fresh fetch). -/
theorem poller_loop_step_spec (fetches : Nat → List Check) (timeout k : Nat)
    (h : INITIAL_DELAY + POLL_INTERVAL * k < timeout) :
    (∀ c, get_coderabbit_check (fetches (k + 1)) = some c →
        isRunningState c.state = true →
        (pollLoop fetches timeout k).1 = (pollLoop fetches timeout (k + 1)).1) ∧
    (get_coderabbit_check (fetches (k + 1)) = none →
        pollLoop fetches timeout k = (.completed none, [.fetchEv (k + 1)]) ∧
        pollerExitCode (pollLoop fetches timeout k).1 = 0) ∧
    (∀ c, get_coderabbit_check (fetches (k + 1)) = some c →
        isRunningState c.state = false →
        pollLoop fetches timeout k =
          (.completed (some c.state), [.fetchEv (k + 1)]) ∧
        pollerExitCode (pollLoop fetches timeout k).1 = 0) := by
  refine ⟨?_, ?_, ?_⟩
  · intro c hget hrun
    rw [pollLoop_continue fetches timeout k c h hget hrun]
  · intro hget
    have heq := pollLoop_none fetches timeout k h hget
    exact ⟨heq, by rw [heq]; rfl⟩
  · intro c hget hrun
    have heq := pollLoop_done fetches timeout k c h hget hrun
    exact ⟨heq, by rw [heq]; rfl⟩

theorem poller_loop_step_spec_witness :
    pollLoop exampleFetches 600 0 =
      (.completed (some "success"), [.fetchEv 1]) ∧
    pollerExitCode (pollLoop exampleFetches 600 0).1 = 0 :=
  (poller_loop_step_spec exampleFetches 600 0 (by decide)).2.2
    ⟨"coderabbit-run", "success"⟩ (by decide) (by decide)

/-- C3 (counterexample): the loop body re-fetches first and sleeps
afterwards, so a run whose check completes on the first in-loop fetch
performs that re-fetch with no poll-interval sleep anywhere in its trace —
contradicting "inside the loop each iteration sleeps a fixed poll interval
and then re-fetches the check list". -/
theorem poller_sleep_order_counterexample :
    (mainPoller exampleFetches DEFAULT_TIMEOUT).2 =
      [.sleepEv INITIAL_DELAY, .fetchEv 0, .fetchEv 1] ∧
    Ev.sleepEv POLL_INTERVAL ∉ (mainPoller exampleFetches DEFAULT_TIMEOUT).2 := by
  have h0 : get_coderabbit_check (exampleFetches 0) =
      some ⟨"coderabbit-run", "pending"⟩ := by decide
  have hpl : pollLoop exampleFetches DEFAULT_TIMEOUT 0 =
      (.completed (some "success"), [.fetchEv 1]) :=
    pollLoop_done exampleFetches DEFAULT_TIMEOUT 0
      ⟨"coderabbit-run", "success"⟩ (by decide) (by decide) (by decide)
  have htr : (mainPoller exampleFetches DEFAULT_TIMEOUT).2 =
      [.sleepEv INITIAL_DELAY, .fetchEv 0, .fetchEv 1] := by
    rw [mainPoller, h0]
    simp [show isRunningState "pending" = true by decide, hpl]
  refine ⟨htr, ?_⟩
  rw [htr]
  decide

/-- C3 (amended): the poller returns "timed out" (exit code 1) iff the
initial check is running and the matched check remains running on every
in-loop poll performed while the elapsed time is below the timeout; inside
the loop each iteration re-fetches the check list and then, if the check is
still running, sleeps the fixed poll interval; the loop exits with
"completed" as soon as a poll finds the check absent or non-running, and
with "timed out" as soon as the condition check sees the timeout
elapsed. -/
theorem poller_timeout_iff (fetches : Nat → List Check) (timeout : Nat) :
    ((mainPoller fetches timeout).1 = .timedOut ↔
      (runningAt fetches 0 = true ∧
        ∀ k, INITIAL_DELAY + POLL_INTERVAL * k < timeout →
          runningAt fetches (k + 1) = true)) ∧
    pollerExitCode .timedOut = 1 ∧
    (∀ k c, INITIAL_DELAY + POLL_INTERVAL * k < timeout →
      get_coderabbit_check (fetches (k + 1)) = some c →
      isRunningState c.state = true →
      pollLoop fetches timeout k =
        ((pollLoop fetches timeout (k + 1)).1,
          .fetchEv (k + 1) :: .sleepEv POLL_INTERVAL ::
            (pollLoop fetches timeout (k + 1)).2)) ∧
    (∀ k, INITIAL_DELAY + POLL_INTERVAL * k < timeout →
      runningAt fetches (k + 1) = false →
      (pollLoop fetches timeout k).1 =
        .completed (Option.map Check.state
          (get_coderabbit_check (fetches (k + 1)))) ∧
      (pollLoop fetches timeout k).2 = [.fetchEv (k + 1)]) ∧
    (∀ k, ¬ INITIAL_DELAY + POLL_INTERVAL * k < timeout →
      pollLoop fetches timeout k = (.timedOut, [])) := by
  refine ⟨mainPoller_timedOut_iff fetches timeout, rfl, ?_, ?_, ?_⟩
  · intro k c hk hget hrun
    exact pollLoop_continue fetches timeout k c hk hget hrun
  · intro k hk hnr
    cases hget : get_coderabbit_check (fetches (k + 1)) with
    | none =>
      rw [pollLoop_none fetches timeout k hk hget]
      simp
    | some c =>
      have hrf : isRunningState c.state = false := by
        simpa [runningAt, hget] using hnr
      rw [pollLoop_done fetches timeout k c hk hget hrf]
      simp
  · intro k hk
    exact pollLoop_not_lt fetches timeout k hk

theorem poller_timeout_iff_witness :
    (mainPoller pendingFetches 20).1 = .timedOut :=
  ((poller_timeout_iff pendingFetches 20).1).mpr
    ⟨by decide, fun k _ => rfl⟩

/-- C7: if no entry of the initial check list matches the bot identifier,
or the first matching entry is not in a running state, the poller returns
"nothing to wait for" with exit code 0, and its trace shows only the
initial sleep and the single initial fetch — the poll loop is never
entered. -/
theorem poller_nothing_to_wait (fetches : Nat → List Check) (timeout : Nat)
    (h : (∀ c ∈ fetches 0, nameMatches c = false) ∨
      ∃ c, get_coderabbit_check (fetches 0) = some c ∧
        isRunningState c.state = false) :
    mainPoller fetches timeout =
      (.nothingToWait, [.sleepEv INITIAL_DELAY, .fetchEv 0]) ∧
    pollerExitCode (mainPoller fetches timeout).1 = 0 := by
  have hmain : mainPoller fetches timeout =
      (.nothingToWait, [.sleepEv INITIAL_DELAY, .fetchEv 0]) := by
    rcases h with h | ⟨c, hc, hns⟩
    · have hnone : get_coderabbit_check (fetches 0) = none :=
        List.find?_eq_none.mpr fun c hc => by simp [h c hc]
      rw [mainPoller, hnone]
    · rw [mainPoller, hc]
      simp [hns]
  exact ⟨hmain, by rw [hmain]; rfl⟩

theorem poller_nothing_to_wait_witness :
    mainPoller (fun _ => ([] : List Check)) DEFAULT_TIMEOUT =
      (.nothingToWait, [.sleepEv INITIAL_DELAY, .fetchEv 0]) ∧
    pollerExitCode
      (mainPoller (fun _ => ([] : List Check)) DEFAULT_TIMEOUT).1 = 0 :=
  poller_nothing_to_wait _ _ (Or.inl (by simp))

/-- C8: a `--timeout=<n>` flag with a positive integer value sets the
timeout to that value with no warning; an unparsable or non-positive value
leaves the default of 600 and prints a warning; parsing never fails and the
resulting timeout is always positive. -/
theorem timeout_flag_parsing :
    (∀ pre post : List String,
      (∀ a ∈ pre, "--timeout=".toList.isPrefixOf a.toList = false) →
      (∀ a ∈ post, "--timeout=".toList.isPrefixOf a.toList = false) →
      parse_args (pre ++ "--timeout=30" :: post) = (30, 0) ∧
      parse_args (pre ++ "--timeout=abc" :: post) = (600, 1) ∧
      parse_args (pre ++ "--timeout=0" :: post) = (600, 1) ∧
      parse_args (pre ++ "--timeout=-5" :: post) = (600, 1)) ∧
    (∀ argv : List String, 0 < (parse_args argv).1) := by
  constructor
  · intro pre post hpre hpost
    have hgen : ∀ (x : String) (v : Nat × Nat),
        timeoutStep (DEFAULT_TIMEOUT, 0) x = v →
        parse_args (pre ++ x :: post) = v := by
      intro x v hx
      rw [parse_args, List.foldl_append,
        foldl_timeoutStep_skip pre _ hpre, List.foldl_cons, hx,
        foldl_timeoutStep_skip post _ hpost]
    exact ⟨hgen _ _ (by decide), hgen _ _ (by decide),
      hgen _ _ (by decide), hgen _ _ (by decide)⟩
  · intro argv
    exact foldl_timeoutStep_fst_pos argv _ (by decide)

theorem timeout_flag_parsing_witness :
    parse_args ["--timeout=30"] = (30, 0) ∧
    parse_args ["--timeout=abc"] = (600, 1) ∧
    parse_args ["--timeout=0"] = (600, 1) ∧
    parse_args ["--timeout=-5"] = (600, 1) := by
  have h := timeout_flag_parsing.1 [] [] (by simp) (by simp)
  simpa using h

/-- C10: whether a fetched check counts as running depends only on its
lowercased state string: with a matched initial check the poller proceeds
past "nothing to wait for" exactly when the lowercased state is in
`RUNNING_STATES`, each in-loop decision likewise tests the lowercased
state, and uppercase spellings such as "PENDING" or "In_Progress"
lowercase into the running-state set. -/
theorem poller_state_case_insensitive :
    (∀ (fetches : Nat → List Check) (timeout : Nat) (c : Check),
      get_coderabbit_check (fetches 0) = some c →
      ((mainPoller fetches timeout).1 = .nothingToWait ↔
        RUNNING_STATES.contains (pyLower c.state) = false)) ∧
    (∀ (fetches : Nat → List Check) (timeout k : Nat) (c : Check),
      INITIAL_DELAY + POLL_INTERVAL * k < timeout →
      get_coderabbit_check (fetches (k + 1)) = some c →
      (pollLoop fetches timeout k).1 =
        (if RUNNING_STATES.contains (pyLower c.state) = true then
          (pollLoop fetches timeout (k + 1)).1
        else .completed (some c.state))) ∧
    pyLower "PENDING" = "pending" ∧
    pyLower "In_Progress" = "in_progress" ∧
    RUNNING_STATES.contains "pending" = true ∧
    RUNNING_STATES.contains "in_progress" = true := by
  refine ⟨?_, ?_, by decide, by decide, by decide, by decide⟩
  · intro fetches timeout c hget
    rw [mainPoller, hget]
    cases hrun : isRunningState c.state with
    | true =>
      simp only [hrun, if_true]
      have hne := pollLoop_fst_ne_nothing fetches timeout 0
      constructor
      · intro hx
        exact absurd hx hne
      · intro hx
        rw [show RUNNING_STATES.contains (pyLower c.state) = true
          from hrun] at hx
        exact Bool.noConfusion hx
    | false =>
      simp only [hrun, Bool.false_eq_true, if_false]
      constructor
      · intro _
        exact hrun
      · intro _
        trivial
  · intro fetches timeout k c hk hget
    cases hrun : isRunningState c.state with
    | true =>
      rw [pollLoop_continue fetches timeout k c hk hget hrun,
        if_pos (show RUNNING_STATES.contains (pyLower c.state) = true
          from hrun)]
    | false =>
      rw [pollLoop_done fetches timeout k c hk hget hrun,
        if_neg (show ¬ RUNNING_STATES.contains (pyLower c.state) = true
          from by rw [show RUNNING_STATES.contains (pyLower c.state) = false
            from hrun]; simp)]

theorem poller_state_case_insensitive_witness :
    (mainPoller (fun _ => [⟨"CodeRabbit Run", "PENDING"⟩]) 600).1 =
        .nothingToWait ↔
      RUNNING_STATES.contains (pyLower "PENDING") = false :=
  poller_state_case_insensitive.1 _ 600 ⟨"CodeRabbit Run", "PENDING"⟩
    (by decide)

/-- C1: an entry reaches the rendered review list exactly when it comes
from a review whose author login is the fixed bot identifier
`"coderabbitai"`, whose body is non-empty after HTML-comment stripping, and
on which the current user has not reacted; and a recorded reaction counts
against a review exactly when its user is the current user and its content
is `THUMBS_UP` — a thumbs up from any other user, or any other reaction
from the current user, does not exclude the review. -/
theorem review_inclusion_invariant :
    (∀ (rs : List Review) (user : String) (rb : RB),
      rb ∈ review_bodies rs user ↔
        ∃ r ∈ rs, r.author = some "coderabbitai" ∧
          strip_html_comments (r.body.getD "") ≠ "" ∧
          has_user_reacted r user = false ∧
          rb = ⟨r.id, strip_html_comments (r.body.getD "")⟩) ∧
    (∀ (r : Review) (user : String),
      has_user_reacted r user = true ↔
        ∃ x ∈ r.reactions, x.user = some user ∧
          x.content = some "THUMBS_UP") := by
  refine ⟨mem_review_bodies_iff, ?_⟩
  intro r user
  simp [has_user_reacted, List.any_eq_true, Bool.and_eq_true, beq_iff_eq]

theorem review_inclusion_invariant_witness :
    (⟨"R1", "Looks good"⟩ : RB) ∈
      review_bodies
        [⟨"R1", some "coderabbitai", some "<!--c-->Looks good",
          [⟨some "alice", some "THUMBS_UP"⟩]⟩] "octocat" :=
  (review_inclusion_invariant.1 _ "octocat" _).mpr
    ⟨⟨"R1", some "coderabbitai", some "<!--c-->Looks good",
        [⟨some "alice", some "THUMBS_UP"⟩]⟩,
      by simp, by decide, by decide, by decide, by decide⟩

/-- C4: HTML-comment stripping removes every `<!-- ... -->` span
non-greedily (also across newlines) and trims surrounding whitespace:
`"before<!--hidden-->after"` becomes `"beforeafter"`, a body that is only
markup becomes the empty string, and no entry of the rendered review list
ever has an empty body — a review emptied by stripping is dropped. -/
theorem strip_html_comments_spec :
    strip_html_comments "before<!--hidden-->after" = "beforeafter" ∧
    strip_html_comments "<!--hidden-->" = "" ∧
    strip_html_comments "a<!--x\ny-->b" = "ab" ∧
    strip_html_comments "a<!--b-->c-->d" = "ac-->d" ∧
    strip_html_comments "  \n x <!--c--> \t" = "x" ∧
    (∀ (rs : List Review) (user : String) (rb : RB),
      rb ∈ review_bodies rs user → rb.body ≠ "") := by
  refine ⟨by decide, by decide, by decide, by decide, by decide, ?_⟩
  intro rs user rb hm
  obtain ⟨r, _, _, hne, _, hrb⟩ := (mem_review_bodies_iff rs user rb).mp hm
  rw [hrb]
  exact hne

theorem strip_html_comments_spec_witness :
    (⟨"R1", "x"⟩ : RB).body ≠ "" :=
  strip_html_comments_spec.2.2.2.2.2
    [⟨"R1", some "coderabbitai", some "x", []⟩] "u" ⟨"R1", "x"⟩ (by decide)

/-- C5: when every external lookup succeeds and the filtered review list
and the filtered thread list are both empty, the aggregator writes exactly
the minimal "No unresolved comments" document, prints the no-op notice, and
exits 0 — no further formatting occurs. -/
theorem aggregator_no_content (env : AggEnv) (repo : RepoInfo) (pr : Int)
    (user : String) (data : PrData)
    (h1 : env.repoInfo = .ok repo) (h2 : env.prNumber = .ok pr)
    (h3 : env.currentUser = .ok user)
    (h4 : env.graphql repo.owner repo.name pr = .ok data)
    (h5 : review_bodies data.reviews user = [])
    (h6 : unresolved_threads data.reviewThreads = []) :
    runAgg env =
      ⟨some ("# Review Comments\n\n**PR:** #" ++ toString pr ++
          "\n\nNo unresolved comments.\n"),
        ["No unresolved comments found on this PR"], "", 0⟩ := by
  have hm : mainAgg env =
      .ok (minimalDoc pr, ["No unresolved comments found on this PR"]) := by
    rw [mainAgg, h1, h2, h3]
    simp only [Bind.bind, Except.bind]
    rw [h4]
    simp [h5, h6, Pure.pure, Except.pure]
  rw [runAgg, hm, minimalDoc]

theorem aggregator_no_content_witness :
    runAgg ⟨.ok ⟨"octo", "repo"⟩, .ok 7, .ok "octocat",
        fun _ _ _ => .ok ⟨[], []⟩⟩ =
      ⟨some ("# Review Comments\n\n**PR:** #" ++ toString (7 : Int) ++
          "\n\nNo unresolved comments.\n"),
        ["No unresolved comments found on this PR"], "", 0⟩ :=
  aggregator_no_content _ ⟨"octo", "repo"⟩ 7 "octocat" ⟨[], []⟩
    rfl rfl rfl rfl rfl rfl

/-- C6: exactly the threads with `isResolved = false` and at least one
comment are kept; each kept thread is rendered from its first comment with
a `path:line` location whose line component falls back to `"?"` when the
line is absent, and the kept thread's rendered block occurs verbatim in the
full report document. -/
theorem unresolved_threads_spec :
    (∀ (ts : List Thread) (t : Thread),
      t ∈ unresolved_threads ts ↔
        t ∈ ts ∧ t.isResolved = false ∧ t.comments ≠ []) ∧
    (∀ (t : Thread) (c : Comment) (rest : List Comment),
      t.comments = c :: rest →
      threadPart t =
        "## " ++ location c ++ "\n\n**Thread ID:** `" ++ t.id ++
          "`\n**Author:** " ++ c.author.getD "unknown" ++ "\n\n" ++
          c.body) ∧
    (∀ c : Comment, c.line = none → location c = c.path ++ ":?") ∧
    (∀ (c : Comment) (n : Int), c.line = some n →
      location c = c.path ++ ":" ++ toString n) ∧
    (∀ (pr : Int) (bodies : List RB) (ts : List Thread) (t : Thread),
      t ∈ unresolved_threads ts →
      strOccurs (fullDoc pr (unresolved_threads ts) bodies)
        (threadPart t)) := by
  refine ⟨?_, ?_, ?_, ?_, ?_⟩
  · intro ts t
    simp [unresolved_threads, List.mem_filter, Bool.and_eq_true,
      Bool.not_eq_true', List.isEmpty_iff, and_assoc]
  · intro t c rest h
    rw [threadPart, h]
    simp [List.headD]
  · intro c h
    rw [location, h, String.append_assoc]
    rfl
  · intro c n h
    rw [location, h]
  · intro pr bodies ts t h
    exact threadPart_occurs_fullDoc pr _ bodies t h

theorem unresolved_threads_spec_witness :
    strOccurs
      (fullDoc 7
        (unresolved_threads
          [⟨"T1", false, [⟨some "alice", "a.py", some 10, "fix this"⟩]⟩])
        [])
      (threadPart
        ⟨"T1", false, [⟨some "alice", "a.py", some 10, "fix this"⟩]⟩) :=
  unresolved_threads_spec.2.2.2.2 7 [] _ _ (by decide)

/-- C9: whenever the repository lookup, the PR-number lookup, the
current-user lookup, or the GraphQL fetch fails, the aggregator writes no
report file, prints a single message with the uniform `Error: ` prefix to
the error stream, and exits 1. -/
theorem aggregator_fatal_error (env : AggEnv)
    (h : (∃ e, env.repoInfo = .error e) ∨ (∃ e, env.prNumber = .error e) ∨
      (∃ e, env.currentUser = .error e) ∨
      (∃ repo pr e, env.repoInfo = .ok repo ∧ env.prNumber = .ok pr ∧
        env.graphql repo.owner repo.name pr = .error e)) :
    ∃ msg, runAgg env = ⟨none, [], "Error: " ++ msg ++ "\n", 1⟩ := by
  cases hm : mainAgg env with
  | error e => exact ⟨e, by rw [runAgg, hm]⟩
  | ok v =>
    exfalso
    rcases h with ⟨e, he⟩ | ⟨e, he⟩ | ⟨e, he⟩ | ⟨repo, pr, e, hr, hp, hg⟩
    · rw [mainAgg, he] at hm
      simp [Bind.bind, Except.bind] at hm
    · rw [mainAgg, he] at hm
      cases hre : env.repoInfo with
      | error e2 => rw [hre] at hm; simp [Bind.bind, Except.bind] at hm
      | ok repo => rw [hre] at hm; simp [Bind.bind, Except.bind] at hm
    · rw [mainAgg, he] at hm
      cases hre : env.repoInfo with
      | error e2 => rw [hre] at hm; simp [Bind.bind, Except.bind] at hm
      | ok repo =>
        cases hpn : env.prNumber with
        | error e2 => rw [hre, hpn] at hm; simp [Bind.bind, Except.bind] at hm
        | ok pr => rw [hre, hpn] at hm; simp [Bind.bind, Except.bind] at hm
    · rw [mainAgg, hr, hp] at hm
      simp only [Bind.bind, Except.bind] at hm
      rw [hg] at hm
      simp only [Bind.bind, Except.bind] at hm
      cases hu : env.currentUser <;> rw [hu] at hm <;> simp at hm

theorem aggregator_fatal_error_witness :
    ∃ msg, runAgg ⟨.error "GraphQL query failed", .ok 1, .ok "octocat",
        fun _ _ _ => .ok ⟨[], []⟩⟩ =
      ⟨none, [], "Error: " ++ msg ++ "\n", 1⟩ :=
  aggregator_fatal_error _ (Or.inl ⟨"GraphQL query failed", rfl⟩)
